import Mathlib

set_option linter.unusedVariables false
set_option linter.unnecessarySeqFocus false

/-!
Shallow embedding of the skipper routing package introspection endpoint
(routing/routing.go) and of the multitype plugin loader (plugins.go),
together with theorems settling the specification claims about them.
-/

/-- A parsed route definition (eskip.Route of the external eskip package).
The introspection claims treat routes opaquely, so only the identifier is
carried here. -/
structure EskipRoute where
  id : String
deriving DecidableEq

/-- A Go slice value: `none` is the nil slice, `some l` a non-nil slice with
elements `l`.  A nil slice and an empty non-nil slice both have length 0 but
encode differently to JSON, which is what the nil/non-nil distinction is
needed for. -/
abbrev GoSlice (α : Type) := Option (List α)

/-- Elements of a Go slice (`len` and indexing view). -/
def GoSlice.data {α : Type} : GoSlice α → List α
  | none => []
  | some l => l

/-- Whether a Go slice is the nil slice. -/
def GoSlice.isNil {α : Type} : GoSlice α → Bool
  | none => true
  | some _ => false

/-- An HTTP request as the handler sees it after req.ParseForm(): the method,
the parsed form (ordered key/value pairs, a key may repeat), and the value of
the Accept header. -/
structure Request where
  method : String
  form : List (String × String)
  accept : String
deriving DecidableEq

/-- First value associated with a key in an ordered key/value list, or the
empty string when the key is absent.  This is url.Values.Get. -/
def firstValue (l : List (String × String)) (key : String) : String :=
  match l.filter (fun p => p.fst == key) with
  | [] => ""
  | p :: _ => p.snd

/-- All values associated with a key, in order.  This is the url.Values map
lookup r.Form[key]. -/
def valuesOf (l : List (String × String)) (key : String) : List String :=
  (l.filter (fun p => p.fst == key)).map (fun p => p.snd)

/-- req.Form.Get(key). -/
def formGet (req : Request) (key : String) : String :=
  firstValue req.form key

/-- req.Form[key]. -/
def formValues (req : Request) (key : String) : List String :=
  valuesOf req.form key

/-- strings.Contains(s, sub): sub occurs as a contiguous substring of s. -/
def strContains (s sub : String) : Bool :=
  (List.range (s.length + 1)).any (fun i => sub.toList.isPrefixOf (s.toList.drop i))

/-- strconv.Atoi on the strings relevant here: an optional sign followed by at
least one decimal digit, nothing else.  (The int64 range check of the real
Atoi is not modelled; it only turns additional, very large inputs into
errors.) -/
def Atoi (s : String) : Option Int :=
  match s.toList with
  | [] => none
  | c :: rest =>
    let neg : Bool := c = '-'
    let ds : List Char := if c = '-' ∨ c = '+' then rest else c :: rest
    if ds = [] then none
    else if ds.all (fun d => d.isDigit) then
      let n : Nat := ds.foldl (fun acc d => acc * 10 + (d.toNat - 48)) 0
      some (if neg then -(n : Int) else (n : Int))
    else none

/-- Default for the limit query parameter (constant
defaultRouteListingLimit in routing.go). -/
def defaultRouteListingLimit : Int := 1024

/-- Header name constant routesTimestampName. -/
def routesTimestampName : String := "X-Timestamp"

/-- Header name constant routesCountName. -/
def routesCountName : String := "X-Count"

/-- eskip.PrettyPrintInfo: controls the textual printing of routes. -/
structure PrettyPrintInfo where
  Pretty : Bool
  IndentStr : String
deriving DecidableEq

/-- The body written by the introspection handler.  Serialization itself
(json.Encoder, eskip.Fprint) is external to the repository import graph, so
the body records which serializer ran and on what data. -/
inductive Body where
  | empty : Body
  | err (msg : String) : Body
  | jsonRoutes (routes : GoSlice EskipRoute) : Body
  | eskipText (pp : PrettyPrintInfo) (routes : GoSlice EskipRoute) : Body
deriving DecidableEq

/-- The response assembled by the handler: status code, headers in the order
they were set, and the body. -/
structure Response where
  status : Nat
  headers : List (String × String)
  body : Body
deriving DecidableEq

/-- http.Error(w, msg, code): sets the plain-text content type and the
nosniff header, sends the status code and writes the message line. -/
def httpError (msg : String) (code : Nat) : Response :=
  ⟨code,
   [("Content-Type", "text/plain; charset=utf-8"),
    ("X-Content-Type-Options", "nosniff")],
   Body.err msg⟩

/-- A compiled route (routing.Route).  The claims settled here treat compiled
routes opaquely, so only the identifier is carried. -/
structure Route where
  id : String
deriving DecidableEq

/-- Result of a matcher lookup: the winning route and the captured wildcard
parameters, or nothing. -/
abbrev MatchResult := Option (Route × List (String × String))

/-- Modelled from the spec: the matcher produced by the compiler (matcher.go
is outside the given sources).  Per the spec the matcher answers per-request
lookups as a pure function of the request, returning the winning route and
the captured path parameters, or no match. -/
structure Matcher where
  matchFn : Request → MatchResult

/-- Modelled from the spec: struct routeTable (defined outside the given
sources; routing.go uses its fields m, created and validRoutes).  A
generation holds the matcher, the creation instant (carried here directly as
its Unix second, the only projection routing.go uses), and the ordered list
of valid routes for introspection. -/
structure RouteTable where
  m : Matcher
  created : Int
  validRoutes : GoSlice EskipRoute

/-- The router: the atomically readable cell holding the current generation
(field routeTable of struct Routing). -/
structure Routing where
  routeTable : RouteTable

/-- r.routeTable.Store(rt), as performed by startReceivingUpdates when a new
generation arrives: publish a new generation. -/
def Routing.storeTable (r : Routing) (rt : RouteTable) : Routing :=
  ⟨rt⟩

/-- A sequence of publications applied in order. -/
def publishAll (r : Routing) (gens : List RouteTable) : Routing :=
  gens.foldl Routing.storeTable r

/-- Routing.Route: match a request in the current routing tree. -/
def Routing.Route (r : Routing) (req : Request) : MatchResult :=
  Matcher.matchFn r.routeTable.m req

/-- RouteLookup: a captured generation of the lookup tree. -/
structure RouteLookup where
  matcher : Matcher

/-- RouteLookup.Do: execute the lookup against the captured routing table. -/
def RouteLookup.Do (rl : RouteLookup) (req : Request) : MatchResult :=
  Matcher.matchFn rl.matcher req

/-- Routing.Get: capture the current generation of the lookup table. -/
def Routing.Get (r : Routing) : RouteLookup :=
  ⟨r.routeTable.m⟩

/-- The slice helper of routing.go: clamp offset to the list length, clamp
offset+limit to the list length, take the sub-slice, and replace a nil
result by an empty non-nil slice.  In Go, r[offset:end] is nil exactly when
r is nil (both call-site arguments are validated non-negative; for negative
arguments Go would panic, so nothing is claimed there). -/
def sliceRoutes (r : GoSlice EskipRoute) (offset limit : Int) : GoSlice EskipRoute :=
  let len : Int := (GoSlice.data r).length
  let offset2 : Int := if offset > len then len else offset
  let e : Int := if offset2 + limit > len then len else offset2 + limit
  let result : GoSlice EskipRoute :=
    match r with
    | none => none
    | some l => some ((l.drop offset2.toNat).take (e - offset2).toNat)
  if GoSlice.isNil result then some [] else result

/-- extractParam of routing.go: read a form parameter, defaulting when
absent, rejecting unparsable and negative values. -/
def extractParam (req : Request) (key : String) (defaultValue : Int) :
    Except String Int :=
  let param := formGet req key
  if param = "" then Except.ok defaultValue
  else
    match Atoi param with
    | none => Except.error "parse error"
    | some val =>
      if val < 0 then Except.error ("invalid value for " ++ key)
      else Except.ok val

/-- extractPretty of routing.go: pretty-print with two-space indentation
unless the first nopretty value is present and differs from \"0\" and
\"false\". -/
def extractPretty (req : Request) : PrettyPrintInfo :=
  match formValues req "nopretty" with
  | [] => ⟨true, "  "⟩
  | val :: _ =>
    if val = "0" ∨ val = "false" then ⟨true, "  "⟩
    else ⟨false, ""⟩

/-- The part of Routing.ServeHTTP after the method and timestamp checks
(lines 230-273 of routing.go): the HEAD early return with headers only,
parameter extraction, and content negotiation.  The string
toString rt.created is the createdUnix local
(strconv.FormatInt(rt.created.Unix(), 10)).  json.NewEncoder(w).Encode on
the in-memory body model is total, so the writer-failure branch (500) is
unreachable here. -/
def serveListing (rt : RouteTable) (req : Request) : Response :=
  if req.method = "HEAD" then
    ⟨200,
     [(routesTimestampName, toString rt.created),
      (routesCountName, toString (GoSlice.data rt.validRoutes).length),
      ("Content-Type",
       if strContains req.accept "application/json" then "application/json"
       else "text/plain")],
     Body.empty⟩
  else
    match extractParam req "offset" 0 with
    | Except.error _ => httpError "invalid offset" 400
    | Except.ok offset =>
      match extractParam req "limit" defaultRouteListingLimit with
      | Except.error _ => httpError "invalid limit" 400
      | Except.ok limit =>
        let routes := sliceRoutes rt.validRoutes offset limit
        if strContains req.accept "application/json" then
          ⟨200,
           [(routesTimestampName, toString rt.created),
            (routesCountName, toString (GoSlice.data rt.validRoutes).length),
            ("Content-Type", "application/json")],
           Body.jsonRoutes routes⟩
        else
          ⟨200,
           [(routesTimestampName, toString rt.created),
            (routesCountName, toString (GoSlice.data rt.validRoutes).length),
            ("Content-Type", "text/plain")],
           Body.eskipText (extractPretty req) routes⟩

/-- Routing.ServeHTTP: the introspection endpoint.  Non-GET/HEAD methods get
405 with nothing written; a present timestamp parameter that differs from
the generation timestamp gets 400; the rest is serveListing. -/
def Routing.ServeHTTP (r : Routing) (req : Request) : Response :=
  if req.method ≠ "GET" ∧ req.method ≠ "HEAD" then ⟨405, [], Body.empty⟩
  else if formGet req "timestamp" ≠ "" ∧
      toString r.routeTable.created ≠ formGet req "timestamp" then
    httpError "invalid timestamp" 400
  else serveListing r.routeTable req

/-- Top-level encoding/json behaviour for a slice of routes: a nil slice
encodes as the JSON literal null, a non-nil slice as a JSON array of its
encoded elements.  The per-route object encoding is abstract (enc). -/
def encodeRoutesJson (enc : EskipRoute → String) : GoSlice EskipRoute → String
  | none => "null"
  | some l => "[" ++ String.intercalate "," (l.map enc) ++ "]"

/-- A request with every binding of one form key removed. -/
def removeParam (req : Request) (key : String) : Request :=
  ⟨req.method, req.form.filter (fun p => p.fst != key), req.accept⟩

/-- Whether a present offset/limit parameter string is one that extractParam
rejects: present and not a non-negative integer. -/
def invalidParamStr (s : String) : Bool :=
  s != "" &&
    (match Atoi s with
     | none => true
     | some v => decide (v < 0))

/-- Whether a response body carries route content (a serialized route page). -/
def bodyHasRoutes : Body → Bool
  | Body.jsonRoutes _ => true
  | Body.eskipText _ _ => true
  | _ => false

/-- A filter specification (filters.Spec, an external interface); treated as
an opaque token here. -/
structure FilterSpec where
  name : String
deriving DecidableEq

/-- A custom predicate specification (routing.PredicateSpec interface);
treated as an opaque token here. -/
structure PredicateSpec where
  name : String
deriving DecidableEq

/-- A data client (routing.DataClient interface); treated as an opaque token
here. -/
structure DataClient where
  name : String
deriving DecidableEq

/-- The quadruple returned by LoadMultiPlugin and by an InitPlugin function:
possibly-nil filter spec, predicate spec, data client, and error. -/
abbrev MultiPluginResult :=
  Option FilterSpec × Option PredicateSpec × Option DataClient × Option String

/-- A symbol found in a loaded plugin module: either a function of the
InitPlugin signature, or a symbol of some other type (so that the Go type
assertion in LoadMultiPlugin fails on it). -/
inductive PluginSymbol where
  | initPluginFn (fn : List String → MultiPluginResult) : PluginSymbol
  | otherType : PluginSymbol

/-- A loaded plugin module: what mod.Lookup of the symbol InitPlugin yields
(an error when the symbol is absent). -/
structure PluginModule where
  lookupInitPlugin : Except String PluginSymbol

/-- The dynamic-loading environment: what plugin.Open yields for each path.
plugin.Open and friends are Go runtime facilities external to the
repository, so they are parameters of the embedding. -/
structure PluginWorld where
  openPlugin : String → Except String PluginModule

/-- LoadMultiPlugin of plugins.go: open the module, look up InitPlugin,
check its signature, run it, and turn any failure into an all-nil result
with an error.  Error message texts are abbreviated. -/
def LoadMultiPlugin (w : PluginWorld) (path : String) (args : List String) :
    MultiPluginResult :=
  match w.openPlugin path with
  | Except.error e =>
    (none, none, none, some ("open multitype plugin " ++ path ++ ": " ++ e))
  | Except.ok m =>
    match m.lookupInitPlugin with
    | Except.error e =>
      (none, none, none,
       some ("lookup module symbol failed for " ++ path ++ ": " ++ e))
    | Except.ok PluginSymbol.otherType =>
      (none, none, none,
       some ("plugin " ++ path ++ " InitPlugin function has wrong signature"))
    | Except.ok (PluginSymbol.initPluginFn fn) =>
      match fn args with
      | (_, _, _, some e) =>
        (none, none, none, some ("plugin " ++ path ++ " returned: " ++ e))
      | (fltr, pred, dc, none) => (fltr, pred, dc, none)

/-- A matcher that never matches (the initial matcher shape suffices for the
introspection fixtures, which never consult the matcher). -/
def matcherEmpty : Matcher :=
  ⟨fun _ => none⟩

/-- A fixture generation with no routes, created at Unix second 0. -/
def tableEmpty : RouteTable :=
  ⟨matcherEmpty, 0, some []⟩

/-- A fixture router holding tableEmpty. -/
def routingEmpty : Routing :=
  ⟨tableEmpty⟩

/-- A non-nil slice of n distinct routes. -/
def routesN (n : Nat) : GoSlice EskipRoute :=
  some ((List.range n).map (fun i => ⟨toString i⟩))

/-- A fixture generation with ten routes, created at Unix second 1234. -/
def tableTen : RouteTable :=
  ⟨matcherEmpty, 1234, routesN 10⟩

/-- A fixture router holding tableTen. -/
def routingTen : Routing :=
  ⟨tableTen⟩

theorem filter_keep_of_ne (l : List (String × String)) (k key : String)
    (hk : key ≠ k) :
    (l.filter (fun p => p.fst != k)).filter (fun p => p.fst == key)
      = l.filter (fun p => p.fst == key) := by
  induction l with
  | nil => rfl
  | cons a t ih =>
    by_cases ha : a.fst = key
    · have h1 : (a.fst != k) = true := by
        rw [bne_iff_ne, ha]
        exact hk
      simp [List.filter_cons, h1, ha, ih, hk]
    · by_cases h2 : a.fst = k
      · simp [List.filter_cons, h2, ha, ih, Ne.symm hk]
      · simp [List.filter_cons, h2, ha, ih]

theorem filter_drop_self (l : List (String × String)) (k : String) :
    (l.filter (fun p => p.fst != k)).filter (fun p => p.fst == k) = [] := by
  induction l with
  | nil => rfl
  | cons a t ih =>
    by_cases h : a.fst = k
    · simp [List.filter_cons, h, ih]
    · simp [List.filter_cons, h, ih]

theorem formGet_removeParam_ne (req : Request) (k key : String)
    (hk : key ≠ k) :
    formGet (removeParam req k) key = formGet req key := by
  unfold formGet removeParam firstValue
  rw [filter_keep_of_ne req.form k key hk]

theorem formGet_removeParam_self (req : Request) (k : String) :
    formGet (removeParam req k) k = "" := by
  unfold formGet removeParam firstValue
  rw [filter_drop_self req.form k]

theorem formValues_removeParam_ne (req : Request) (k key : String)
    (hk : key ≠ k) :
    formValues (removeParam req k) key = formValues req key := by
  unfold formValues removeParam valuesOf
  rw [filter_keep_of_ne req.form k key hk]

theorem extractParam_congr {req1 req2 : Request} (key : String) (d : Int)
    (h : formGet req1 key = formGet req2 key) :
    extractParam req1 key d = extractParam req2 key d := by
  unfold extractParam
  rw [h]

theorem extractPretty_congr {req1 req2 : Request}
    (h : formValues req1 "nopretty" = formValues req2 "nopretty") :
    extractPretty req1 = extractPretty req2 := by
  unfold extractPretty
  rw [h]

theorem serveListing_removeTimestamp (rt : RouteTable) (req : Request) :
    serveListing rt (removeParam req "timestamp") = serveListing rt req := by
  have ho : extractParam (removeParam req "timestamp") "offset" 0
      = extractParam req "offset" 0 :=
    extractParam_congr "offset" 0
      (formGet_removeParam_ne req "timestamp" "offset" (by decide))
  have hl : extractParam (removeParam req "timestamp") "limit"
        defaultRouteListingLimit
      = extractParam req "limit" defaultRouteListingLimit :=
    extractParam_congr "limit" defaultRouteListingLimit
      (formGet_removeParam_ne req "timestamp" "limit" (by decide))
  have hp : extractPretty (removeParam req "timestamp") = extractPretty req :=
    extractPretty_congr
      (formValues_removeParam_ne req "timestamp" "nopretty" (by decide))
  unfold serveListing
  rw [ho, hl, hp]
  rfl

theorem sliceRoutes_isNil (rs : GoSlice EskipRoute) (off lim : Int) :
    GoSlice.isNil (sliceRoutes rs off lim) = false := by
  cases rs <;> simp [sliceRoutes, GoSlice.isNil]

theorem sliceRoutes_length (rs : GoSlice EskipRoute) (off lim : Int)
    (hoff : 0 ≤ off) (hlim : 0 ≤ lim) :
    ((GoSlice.data (sliceRoutes rs off lim)).length : Int)
      = min lim (((GoSlice.data rs).length : Int)
          - min off ((GoSlice.data rs).length : Int)) := by
  cases rs with
  | none =>
    simp [sliceRoutes, GoSlice.data, GoSlice.isNil]
    omega
  | some l =>
    simp only [sliceRoutes, GoSlice.data, GoSlice.isNil, Bool.false_eq_true,
      if_false, List.length_take, List.length_drop]
    split_ifs <;> simp [List.length_take, List.length_drop] <;> omega

theorem serveHTTP_not_allowed (r : Routing) (req : Request)
    (hm : req.method ≠ "GET" ∧ req.method ≠ "HEAD") :
    Routing.ServeHTTP r req = ⟨405, [], Body.empty⟩ := by
  unfold Routing.ServeHTTP
  rw [if_pos hm]

theorem serveHTTP_ts_mismatch (r : Routing) (req : Request)
    (hm : ¬(req.method ≠ "GET" ∧ req.method ≠ "HEAD"))
    (hts : formGet req "timestamp" ≠ "" ∧
      toString r.routeTable.created ≠ formGet req "timestamp") :
    Routing.ServeHTTP r req = httpError "invalid timestamp" 400 := by
  unfold Routing.ServeHTTP
  rw [if_neg hm, if_pos hts]

theorem serveHTTP_ts_pass (r : Routing) (req : Request)
    (hm : ¬(req.method ≠ "GET" ∧ req.method ≠ "HEAD"))
    (hts : ¬(formGet req "timestamp" ≠ "" ∧
      toString r.routeTable.created ≠ formGet req "timestamp")) :
    Routing.ServeHTTP r req = serveListing r.routeTable req := by
  unfold Routing.ServeHTTP
  rw [if_neg hm, if_neg hts]

theorem serveListing_head (rt : RouteTable) (req : Request)
    (hm : req.method = "HEAD") :
    serveListing rt req =
      ⟨200,
       [(routesTimestampName, toString rt.created),
        (routesCountName, toString (GoSlice.data rt.validRoutes).length),
        ("Content-Type",
         if strContains req.accept "application/json" then "application/json"
         else "text/plain")],
       Body.empty⟩ := by
  unfold serveListing
  rw [if_pos hm]

theorem serveListing_bad_offset (rt : RouteTable) (req : Request)
    (e : String) (hm : ¬req.method = "HEAD")
    (ho : extractParam req "offset" 0 = Except.error e) :
    serveListing rt req = httpError "invalid offset" 400 := by
  unfold serveListing
  rw [if_neg hm, ho]

theorem serveListing_bad_limit (rt : RouteTable) (req : Request)
    (off : Int) (e : String) (hm : ¬req.method = "HEAD")
    (ho : extractParam req "offset" 0 = Except.ok off)
    (hl : extractParam req "limit" defaultRouteListingLimit = Except.error e) :
    serveListing rt req = httpError "invalid limit" 400 := by
  unfold serveListing
  rw [if_neg hm, ho, hl]

theorem serveListing_get (rt : RouteTable) (req : Request) (off lim : Int)
    (hm : ¬req.method = "HEAD")
    (ho : extractParam req "offset" 0 = Except.ok off)
    (hl : extractParam req "limit" defaultRouteListingLimit = Except.ok lim) :
    serveListing rt req =
      if strContains req.accept "application/json" then
        ⟨200,
         [(routesTimestampName, toString rt.created),
          (routesCountName, toString (GoSlice.data rt.validRoutes).length),
          ("Content-Type", "application/json")],
         Body.jsonRoutes (sliceRoutes rt.validRoutes off lim)⟩
      else
        ⟨200,
         [(routesTimestampName, toString rt.created),
          (routesCountName, toString (GoSlice.data rt.validRoutes).length),
          ("Content-Type", "text/plain")],
         Body.eskipText (extractPretty req)
           (sliceRoutes rt.validRoutes off lim)⟩ := by
  unfold serveListing
  rw [if_neg hm, ho, hl]

theorem encodeRoutesJson_some_ne_null (enc : EskipRoute → String)
    (l : List EskipRoute) :
    encodeRoutesJson enc (some l) ≠ "null" := by
  simp only [encodeRoutesJson]
  intro h
  have h2 := congrArg String.data h
  simp [String.data_append] at h2

theorem serveHTTP_body_jsonRoutes (r : Routing) (req : Request)
    (s : GoSlice EskipRoute)
    (h : (Routing.ServeHTTP r req).body = Body.jsonRoutes s) :
    ∃ off lim, extractParam req "offset" 0 = Except.ok off ∧
      extractParam req "limit" defaultRouteListingLimit = Except.ok lim ∧
      s = sliceRoutes r.routeTable.validRoutes off lim := by
  by_cases h1 : req.method ≠ "GET" ∧ req.method ≠ "HEAD"
  · rw [serveHTTP_not_allowed r req h1] at h
    simp at h
  · by_cases h2 : formGet req "timestamp" ≠ "" ∧
        toString r.routeTable.created ≠ formGet req "timestamp"
    · rw [serveHTTP_ts_mismatch r req h1 h2] at h
      simp [httpError] at h
    · rw [serveHTTP_ts_pass r req h1 h2] at h
      by_cases h3 : req.method = "HEAD"
      · rw [serveListing_head r.routeTable req h3] at h
        simp at h
      · rcases ho : extractParam req "offset" 0 with e | off
        · rw [serveListing_bad_offset r.routeTable req e h3 ho] at h
          simp [httpError] at h
        · rcases hl : extractParam req "limit" defaultRouteListingLimit
              with e | lim
          · rw [serveListing_bad_limit r.routeTable req off e h3 ho hl] at h
            simp [httpError] at h
          · rw [serveListing_get r.routeTable req off lim h3 ho hl] at h
            split_ifs at h with h4 <;> simp at h
            exact ⟨off, lim, rfl, rfl, h.symm⟩

/-- C9: sliceRoutes always returns a non-nil slice; therefore the JSON body
the handler renders for an empty page is the empty array and never the JSON
literal null, and no JSON body the handler ever emits is the nil slice. -/
theorem sliceRoutes_nonNil_json (rs : GoSlice EskipRoute) (off lim : Int)
    (hoff : 0 ≤ off) (hlim : 0 ≤ lim) :
    GoSlice.isNil (sliceRoutes rs off lim) = false ∧
    (∀ enc : EskipRoute → String,
      GoSlice.data (sliceRoutes rs off lim) = [] →
      encodeRoutesJson enc (sliceRoutes rs off lim) = "[]") ∧
    (∀ (r : Routing) (req : Request) (s : GoSlice EskipRoute)
        (enc : EskipRoute → String),
      (Routing.ServeHTTP r req).body = Body.jsonRoutes s →
      GoSlice.isNil s = false ∧ encodeRoutesJson enc s ≠ "null") := by
  refine ⟨sliceRoutes_isNil rs off lim, ?_, ?_⟩
  · intro enc hdata
    rcases hs : sliceRoutes rs off lim with _ | l
    · have hn := sliceRoutes_isNil rs off lim
      rw [hs] at hn
      simp [GoSlice.isNil] at hn
    · rw [hs] at hdata
      simp only [GoSlice.data] at hdata
      subst hdata
      simp only [encodeRoutesJson, List.map_nil]
      rfl
  · intro r req s enc hbody
    obtain ⟨o, li, _, _, hs⟩ := serveHTTP_body_jsonRoutes r req s hbody
    subst hs
    refine ⟨sliceRoutes_isNil _ _ _, ?_⟩
    rcases hs2 : sliceRoutes r.routeTable.validRoutes o li with _ | l
    · have hn := sliceRoutes_isNil r.routeTable.validRoutes o li
      rw [hs2] at hn
      simp [GoSlice.isNil] at hn
    · exact encodeRoutesJson_some_ne_null enc l

/-- C9 witness: the empty page of an empty route list is the non-nil empty
slice and renders as the empty JSON array. -/
theorem sliceRoutes_nonNil_json_witness :
    GoSlice.isNil (sliceRoutes (some []) 0 1024) = false ∧
    encodeRoutesJson (fun r => r.id) (sliceRoutes (some []) 0 1024) = "[]" :=
  ⟨(sliceRoutes_nonNil_json (some []) 0 1024 (by decide) (by decide)).1,
   (sliceRoutes_nonNil_json (some []) 0 1024 (by decide)
       (by decide)).2.1 (fun r => r.id) (by decide)⟩

/-- C8: a handle pinned by Routing.Get evaluates, on every invocation of Do,
exactly the match function of the generation that was current at the moment
of Get (the oracle of the pinned generation); the pinned handle is a value,
unaffected by any list of generations published afterwards, while the live
Routing.Route follows the newest generation; and two calls of Do on the same
handle with the same request return the same route and captures, the lookup
being a pure function of the request. -/
theorem routeLookup_pinned (s : Routing) (later : List RouteTable)
    (req : Request) :
    RouteLookup.Do (Routing.Get s) req = Matcher.matchFn s.routeTable.m req ∧
    RouteLookup.Do (Routing.Get s) req = Routing.Route s req ∧
    Routing.Route (publishAll s later) req
      = Matcher.matchFn (publishAll s later).routeTable.m req ∧
    ∀ x y : MatchResult,
      RouteLookup.Do (Routing.Get s) req = x →
      RouteLookup.Do (Routing.Get s) req = y → x = y :=
  ⟨rfl, rfl, rfl, fun x y hx hy => hx.symm.trans hy⟩

/-- C8 witness: two evaluations of Do on a concrete pinned handle agree. -/
theorem routeLookup_pinned_witness :
    RouteLookup.Do (Routing.Get routingTen) ⟨"GET", [], ""⟩
      = Matcher.matchFn routingTen.routeTable.m ⟨"GET", [], ""⟩ :=
  ((routeLookup_pinned routingTen [tableEmpty] ⟨"GET", [], ""⟩).2.2.2
    (RouteLookup.Do (Routing.Get routingTen) ⟨"GET", [], ""⟩)
    (Matcher.matchFn routingTen.routeTable.m ⟨"GET", [], ""⟩) rfl rfl)

/-- C10: LoadMultiPlugin either returns no error, or returns an error
together with all three component results nil; it never returns a partially
populated result alongside an error. -/
theorem loadMultiPlugin_all_or_nothing (w : PluginWorld) (path : String)
    (args : List String) :
    (LoadMultiPlugin w path args).2.2.2 = none ∨
      ((LoadMultiPlugin w path args).1 = none ∧
       (LoadMultiPlugin w path args).2.1 = none ∧
       (LoadMultiPlugin w path args).2.2.1 = none) := by
  rcases hw : w.openPlugin path with e | m
  · simp [LoadMultiPlugin, hw]
  · rcases hm : m.lookupInitPlugin with e | sym
    · simp [LoadMultiPlugin, hw, hm]
    · cases sym with
      | otherType => simp [LoadMultiPlugin, hw, hm]
      | initPluginFn fn =>
        rcases hf : fn args with ⟨f, p, d, e⟩
        cases e with
        | none => simp [LoadMultiPlugin, hw, hm, hf]
        | some msg => simp [LoadMultiPlugin, hw, hm, hf]

theorem serveHTTP_body_eskipText (r : Routing) (req : Request)
    (pp : PrettyPrintInfo) (rs : GoSlice EskipRoute)
    (h : (Routing.ServeHTTP r req).body = Body.eskipText pp rs) :
    pp = extractPretty req := by
  by_cases h1 : req.method ≠ "GET" ∧ req.method ≠ "HEAD"
  · rw [serveHTTP_not_allowed r req h1] at h
    simp at h
  · by_cases h2 : formGet req "timestamp" ≠ "" ∧
        toString r.routeTable.created ≠ formGet req "timestamp"
    · rw [serveHTTP_ts_mismatch r req h1 h2] at h
      simp [httpError] at h
    · rw [serveHTTP_ts_pass r req h1 h2] at h
      by_cases h3 : req.method = "HEAD"
      · rw [serveListing_head r.routeTable req h3] at h
        simp at h
      · rcases ho : extractParam req "offset" 0 with e | off
        · rw [serveListing_bad_offset r.routeTable req e h3 ho] at h
          simp [httpError] at h
        · rcases hl : extractParam req "limit" defaultRouteListingLimit
              with e | lim
          · rw [serveListing_bad_limit r.routeTable req off e h3 ho hl] at h
            simp [httpError] at h
          · rw [serveListing_get r.routeTable req off lim h3 ho hl] at h
            split_ifs at h <;> simp at h
            exact h.1.symm

/-- C1 (amended): for any method other than GET and HEAD the response is 405
with no headers written (in particular no X-* headers) and no body; a GET
request that is not rejected with 400 has a body containing the routes; a
HEAD request that is not rejected with 400 has status 200, headers only and
an empty body. -/
theorem serveHTTP_methods (r : Routing) (req : Request) :
    ((req.method ≠ "GET" ∧ req.method ≠ "HEAD") →
      Routing.ServeHTTP r req = ⟨405, [], Body.empty⟩) ∧
    (req.method = "GET" → (Routing.ServeHTTP r req).status ≠ 400 →
      bodyHasRoutes (Routing.ServeHTTP r req).body = true) ∧
    (req.method = "HEAD" → (Routing.ServeHTTP r req).status ≠ 400 →
      (Routing.ServeHTTP r req).status = 200 ∧
      (Routing.ServeHTTP r req).body = Body.empty) := by
  refine ⟨fun h => serveHTTP_not_allowed r req h, ?_, ?_⟩
  · intro hget h400
    have h1 : ¬(req.method ≠ "GET" ∧ req.method ≠ "HEAD") := by simp [hget]
    by_cases h2 : formGet req "timestamp" ≠ "" ∧
        toString r.routeTable.created ≠ formGet req "timestamp"
    · rw [serveHTTP_ts_mismatch r req h1 h2] at h400
      simp [httpError] at h400
    · rw [serveHTTP_ts_pass r req h1 h2] at h400 ⊢
      have h3 : ¬req.method = "HEAD" := by rw [hget]; decide
      rcases ho : extractParam req "offset" 0 with e | off
      · rw [serveListing_bad_offset r.routeTable req e h3 ho] at h400
        simp [httpError] at h400
      · rcases hl : extractParam req "limit" defaultRouteListingLimit
            with e | lim
        · rw [serveListing_bad_limit r.routeTable req off e h3 ho hl] at h400
          simp [httpError] at h400
        · rw [serveListing_get r.routeTable req off lim h3 ho hl]
          split_ifs <;> simp [bodyHasRoutes]
  · intro hhead h400
    have h1 : ¬(req.method ≠ "GET" ∧ req.method ≠ "HEAD") := by simp [hhead]
    by_cases h2 : formGet req "timestamp" ≠ "" ∧
        toString r.routeTable.created ≠ formGet req "timestamp"
    · rw [serveHTTP_ts_mismatch r req h1 h2] at h400
      simp [httpError] at h400
    · rw [serveHTTP_ts_pass r req h1 h2,
        serveListing_head r.routeTable req hhead]
      exact ⟨rfl, rfl⟩

/-- C1 witness: a POST request is answered with 405, no headers, no body. -/
theorem serveHTTP_methods_witness :
    Routing.ServeHTTP routingEmpty ⟨"POST", [], ""⟩ = ⟨405, [], Body.empty⟩ :=
  (serveHTTP_methods routingEmpty ⟨"POST", [], ""⟩).1 (by decide)

/-- C1 counterexample: a GET request with offset=x is answered 400 with an
error body, not with the routes, refuting the unqualified claim that the
response body of every GET contains the routes. -/
theorem serveHTTP_methods_counterexample :
    (⟨"GET", [("offset", "x")], ""⟩ : Request).method = "GET" ∧
    bodyHasRoutes (Routing.ServeHTTP routingEmpty
        ⟨"GET", [("offset", "x")], ""⟩).body = false ∧
    (Routing.ServeHTTP routingEmpty ⟨"GET", [("offset", "x")], ""⟩).body
      = Body.err "invalid offset" ∧
    (Routing.ServeHTTP routingEmpty
        ⟨"GET", [("offset", "x")], ""⟩).status = 400 := by
  decide

/-- C3: every GET or HEAD response that is not rejected with an error status
carries X-Timestamp = the creation instant of the current generation as a
Unix second, and X-Count = the number of valid routes of that generation. -/
theorem serveHTTP_stamp_headers (r : Routing) (req : Request)
    (hm : req.method = "GET" ∨ req.method = "HEAD")
    (h200 : (Routing.ServeHTTP r req).status = 200) :
    (routesTimestampName, toString r.routeTable.created)
        ∈ (Routing.ServeHTTP r req).headers ∧
    (routesCountName, toString (GoSlice.data r.routeTable.validRoutes).length)
        ∈ (Routing.ServeHTTP r req).headers := by
  have h1 : ¬(req.method ≠ "GET" ∧ req.method ≠ "HEAD") := by
    rcases hm with h | h <;> simp [h]
  by_cases h2 : formGet req "timestamp" ≠ "" ∧
      toString r.routeTable.created ≠ formGet req "timestamp"
  · rw [serveHTTP_ts_mismatch r req h1 h2] at h200
    simp [httpError] at h200
  · rw [serveHTTP_ts_pass r req h1 h2] at h200 ⊢
    by_cases h3 : req.method = "HEAD"
    · rw [serveListing_head r.routeTable req h3]
      exact ⟨by simp, by simp⟩
    · rcases ho : extractParam req "offset" 0 with e | off
      · rw [serveListing_bad_offset r.routeTable req e h3 ho] at h200
        simp [httpError] at h200
      · rcases hl : extractParam req "limit" defaultRouteListingLimit
            with e | lim
        · rw [serveListing_bad_limit r.routeTable req off e h3 ho hl] at h200
          simp [httpError] at h200
        · rw [serveListing_get r.routeTable req off lim h3 ho hl]
          split_ifs <;> exact ⟨by simp, by simp⟩

/-- C3 witness: the headers of a plain GET against the ten-route fixture. -/
theorem serveHTTP_stamp_headers_witness :
    (routesTimestampName, toString routingTen.routeTable.created)
        ∈ (Routing.ServeHTTP routingTen ⟨"GET", [], ""⟩).headers ∧
    (routesCountName,
        toString (GoSlice.data routingTen.routeTable.validRoutes).length)
        ∈ (Routing.ServeHTTP routingTen ⟨"GET", [], ""⟩).headers :=
  serveHTTP_stamp_headers routingTen ⟨"GET", [], ""⟩ (Or.inl rfl) (by decide)

/-- C4: on a GET or HEAD request, a non-empty timestamp parameter that
differs from the current generation timestamp (as a Unix-second string)
yields status 400; a timestamp parameter equal to the generation timestamp
leaves the response exactly the one produced without the parameter. -/
theorem serveHTTP_timestamp_check (r : Routing) (req : Request)
    (hm : req.method = "GET" ∨ req.method = "HEAD") :
    (formGet req "timestamp" ≠ "" →
      formGet req "timestamp" ≠ toString r.routeTable.created →
      (Routing.ServeHTTP r req).status = 400) ∧
    (formGet req "timestamp" = toString r.routeTable.created →
      Routing.ServeHTTP r req
        = Routing.ServeHTTP r (removeParam req "timestamp")) := by
  have h1 : ¬(req.method ≠ "GET" ∧ req.method ≠ "HEAD") := by
    rcases hm with h | h <;> simp [h]
  constructor
  · intro hne hdiff
    rw [serveHTTP_ts_mismatch r req h1 ⟨hne, Ne.symm hdiff⟩]
    rfl
  · intro heq
    have h2 : ¬(formGet req "timestamp" ≠ "" ∧
        toString r.routeTable.created ≠ formGet req "timestamp") := by
      rw [heq]
      simp
    have h1b : ¬((removeParam req "timestamp").method ≠ "GET" ∧
        (removeParam req "timestamp").method ≠ "HEAD") := h1
    have h2b : ¬(formGet (removeParam req "timestamp") "timestamp" ≠ "" ∧
        toString r.routeTable.created
          ≠ formGet (removeParam req "timestamp") "timestamp") := by
      rw [formGet_removeParam_self]
      simp
    rw [serveHTTP_ts_pass r req h1 h2,
      serveHTTP_ts_pass r (removeParam req "timestamp") h1b h2b]
    exact (serveListing_removeTimestamp r.routeTable req).symm

/-- C4 witness: a mismatched timestamp gets 400; a matching one produces the
same response as if the parameter were absent. -/
theorem serveHTTP_timestamp_check_witness :
    (Routing.ServeHTTP routingTen
        ⟨"GET", [("timestamp", "999")], ""⟩).status = 400 ∧
    Routing.ServeHTTP routingTen ⟨"GET", [("timestamp", "1234")], ""⟩
      = Routing.ServeHTTP routingTen
          (removeParam ⟨"GET", [("timestamp", "1234")], ""⟩ "timestamp") :=
  ⟨(serveHTTP_timestamp_check routingTen ⟨"GET", [("timestamp", "999")], ""⟩
      (Or.inl rfl)).1 (by decide) (by decide),
   (serveHTTP_timestamp_check routingTen ⟨"GET", [("timestamp", "1234")], ""⟩
      (Or.inl rfl)).2 (by decide)⟩

theorem extractParam_error_of_invalid (req : Request) (k : String) (d : Int)
    (h : invalidParamStr (formGet req k) = true) :
    ∃ e, extractParam req k d = Except.error e := by
  unfold invalidParamStr at h
  rw [Bool.and_eq_true] at h
  obtain ⟨h1, h2⟩ := h
  rw [bne_iff_ne] at h1
  unfold extractParam
  rw [if_neg h1]
  rcases ha : Atoi (formGet req k) with _ | v
  · exact ⟨"parse error", rfl⟩
  · rw [ha] at h2
    simp only [decide_eq_true_eq] at h2
    simp [h2]

/-- C5 (amended): for every GET request, a present offset or limit parameter
that is not a non-negative integer yields status 400; an absent parameter
falls back to its default, 0 for offset and 1024 (defaultRouteListingLimit)
for limit.  (Other methods never parse these parameters: non-GET/HEAD
requests get 405 and HEAD returns before parameter extraction.) -/
theorem serveHTTP_param_validation (r : Routing) (req : Request)
    (hm : req.method = "GET") :
    ((invalidParamStr (formGet req "offset") = true ∨
        invalidParamStr (formGet req "limit") = true) →
      (Routing.ServeHTTP r req).status = 400) ∧
    (formGet req "offset" = "" → extractParam req "offset" 0 = Except.ok 0) ∧
    (formGet req "limit" = "" →
      extractParam req "limit" defaultRouteListingLimit = Except.ok 1024) := by
  have h1 : ¬(req.method ≠ "GET" ∧ req.method ≠ "HEAD") := by simp [hm]
  have h3 : ¬req.method = "HEAD" := by rw [hm]; decide
  refine ⟨?_, ?_, ?_⟩
  · intro hinv
    by_cases h2 : formGet req "timestamp" ≠ "" ∧
        toString r.routeTable.created ≠ formGet req "timestamp"
    · rw [serveHTTP_ts_mismatch r req h1 h2]
      rfl
    · rw [serveHTTP_ts_pass r req h1 h2]
      rcases hinv with hbad | hbad
      · obtain ⟨e, he⟩ := extractParam_error_of_invalid req "offset" 0 hbad
        rw [serveListing_bad_offset r.routeTable req e h3 he]
        rfl
      · rcases ho : extractParam req "offset" 0 with e | off
        · rw [serveListing_bad_offset r.routeTable req e h3 ho]
          rfl
        · obtain ⟨e, he⟩ := extractParam_error_of_invalid req "limit"
            defaultRouteListingLimit hbad
          rw [serveListing_bad_limit r.routeTable req off e h3 ho he]
          rfl
  · intro h
    simp [extractParam, h]
  · intro h
    simp [extractParam, h, defaultRouteListingLimit]

/-- C5 witness: a GET with a negative offset parameter is rejected with 400,
and absent parameters fall back to the defaults. -/
theorem serveHTTP_param_validation_witness :
    (Routing.ServeHTTP routingTen ⟨"GET", [("offset", "-1")], ""⟩).status
      = 400 ∧
    extractParam (⟨"GET", [], ""⟩ : Request) "limit" defaultRouteListingLimit
      = Except.ok 1024 :=
  ⟨(serveHTTP_param_validation routingTen ⟨"GET", [("offset", "-1")], ""⟩
      rfl).1 (Or.inl (by decide)),
   (serveHTTP_param_validation routingTen ⟨"GET", [], ""⟩ rfl).2.2 (by decide)⟩

/-- C5 counterexample: a HEAD request carrying an unparsable offset
parameter is answered 200, not 400, because the handler returns the HEAD
headers before extracting pagination parameters; this refutes the claim for
arbitrary request methods. -/
theorem serveHTTP_param_validation_counterexample :
    invalidParamStr
        (formGet (⟨"HEAD", [("offset", "abc")], ""⟩ : Request) "offset")
      = true ∧
    (Routing.ServeHTTP routingTen ⟨"HEAD", [("offset", "abc")], ""⟩).status
      = 200 := by
  decide

/-- C2: the page returned by sliceRoutes has length
min(limit, n - min(offset, n)) for a list of n valid routes; and whenever a
GET request with valid parameters reaches pagination, the response is 200
with exactly that page as its body, so an offset past the end yields an
empty page with HTTP 200 rather than an error, and offset+limit past the
end is clamped to the end of the list. -/
theorem sliceRoutes_pagination (rs : GoSlice EskipRoute) (off lim : Int)
    (hoff : 0 ≤ off) (hlim : 0 ≤ lim) :
    ((GoSlice.data (sliceRoutes rs off lim)).length : Int)
      = min lim (((GoSlice.data rs).length : Int)
          - min off ((GoSlice.data rs).length : Int)) ∧
    ∀ (r : Routing) (req : Request),
      r.routeTable.validRoutes = rs →
      req.method = "GET" →
      formGet req "timestamp" = "" →
      extractParam req "offset" 0 = Except.ok off →
      extractParam req "limit" defaultRouteListingLimit = Except.ok lim →
      (Routing.ServeHTTP r req).status = 200 ∧
      ((Routing.ServeHTTP r req).body
          = Body.jsonRoutes (sliceRoutes rs off lim) ∨
       (Routing.ServeHTTP r req).body
          = Body.eskipText (extractPretty req) (sliceRoutes rs off lim)) := by
  refine ⟨sliceRoutes_length rs off lim hoff hlim, ?_⟩
  intro r req hrs hm hts ho hl
  have h1 : ¬(req.method ≠ "GET" ∧ req.method ≠ "HEAD") := by simp [hm]
  have h2 : ¬(formGet req "timestamp" ≠ "" ∧
      toString r.routeTable.created ≠ formGet req "timestamp") := by
    rw [hts]
    simp
  have h3 : ¬req.method = "HEAD" := by rw [hm]; decide
  rw [serveHTTP_ts_pass r req h1 h2,
    serveListing_get r.routeTable req off lim h3 ho hl]
  subst hrs
  split_ifs with h4
  · exact ⟨rfl, Or.inl rfl⟩
  · exact ⟨rfl, Or.inr rfl⟩

/-- C2 witness: with ten routes, offset 8 and limit 5 give a page of two
routes; offset 100 and limit 5 give HTTP 200. -/
theorem sliceRoutes_pagination_witness :
    ((GoSlice.data (sliceRoutes (routesN 10) 8 5)).length : Int)
      = min 5 (((GoSlice.data (routesN 10)).length : Int)
          - min 8 ((GoSlice.data (routesN 10)).length : Int)) ∧
    (Routing.ServeHTTP routingTen
        ⟨"GET", [("offset", "100"), ("limit", "5")], ""⟩).status = 200 :=
  ⟨(sliceRoutes_pagination (routesN 10) 8 5 (by decide) (by decide)).1,
   ((sliceRoutes_pagination (routesN 10) 100 5 (by decide) (by decide)).2
      routingTen ⟨"GET", [("offset", "100"), ("limit", "5")], ""⟩
      rfl rfl (by decide) (by rfl) (by rfl)).1⟩

/-- C6 (amended): for every GET request whose response is not an error
rejection (status 200), if the Accept header contains application/json the
body is the JSON rendering of the paginated routes with Content-Type
application/json, and otherwise the textual route-definition rendering with
Content-Type text/plain. -/
theorem serveHTTP_content_negotiation (r : Routing) (req : Request)
    (hm : req.method = "GET")
    (h200 : (Routing.ServeHTTP r req).status = 200) :
    (strContains req.accept "application/json" = true →
      ("Content-Type", "application/json")
          ∈ (Routing.ServeHTTP r req).headers ∧
      ∃ off lim, extractParam req "offset" 0 = Except.ok off ∧
        extractParam req "limit" defaultRouteListingLimit = Except.ok lim ∧
        (Routing.ServeHTTP r req).body
          = Body.jsonRoutes (sliceRoutes r.routeTable.validRoutes off lim)) ∧
    (strContains req.accept "application/json" = false →
      ("Content-Type", "text/plain") ∈ (Routing.ServeHTTP r req).headers ∧
      ∃ off lim, extractParam req "offset" 0 = Except.ok off ∧
        extractParam req "limit" defaultRouteListingLimit = Except.ok lim ∧
        (Routing.ServeHTTP r req).body
          = Body.eskipText (extractPretty req)
              (sliceRoutes r.routeTable.validRoutes off lim)) := by
  have h1 : ¬(req.method ≠ "GET" ∧ req.method ≠ "HEAD") := by simp [hm]
  have h3 : ¬req.method = "HEAD" := by rw [hm]; decide
  by_cases h2 : formGet req "timestamp" ≠ "" ∧
      toString r.routeTable.created ≠ formGet req "timestamp"
  · rw [serveHTTP_ts_mismatch r req h1 h2] at h200
    simp [httpError] at h200
  · rw [serveHTTP_ts_pass r req h1 h2] at h200 ⊢
    rcases ho : extractParam req "offset" 0 with e | off
    · rw [serveListing_bad_offset r.routeTable req e h3 ho] at h200
      simp [httpError] at h200
    · rcases hl : extractParam req "limit" defaultRouteListingLimit
          with e | lim
      · rw [serveListing_bad_limit r.routeTable req off e h3 ho hl] at h200
        simp [httpError] at h200
      · rw [serveListing_get r.routeTable req off lim h3 ho hl]
        constructor
        · intro hacc
          rw [if_pos hacc]
          exact ⟨by simp, off, lim, rfl, rfl, rfl⟩
        · intro hacc
          rw [if_neg (by simp [hacc])]
          exact ⟨by simp, off, lim, rfl, rfl, rfl⟩

/-- C6 witness: a JSON-accepting GET is served application/json. -/
theorem serveHTTP_content_negotiation_witness :
    ("Content-Type", "application/json")
      ∈ (Routing.ServeHTTP routingTen
          ⟨"GET", [], "application/json"⟩).headers :=
  ((serveHTTP_content_negotiation routingTen ⟨"GET", [], "application/json"⟩
      rfl (by decide)).1 (by decide)).1

/-- C6 counterexample: a GET with Accept application/json but an unparsable
offset parameter is answered with a plain-text error body and no
application/json content type, refuting the claim for arbitrary GET
requests. -/
theorem serveHTTP_content_negotiation_counterexample :
    strContains (⟨"GET", [("offset", "x")], "application/json"⟩ :
        Request).accept "application/json" = true ∧
    (Routing.ServeHTTP routingEmpty
        ⟨"GET", [("offset", "x")], "application/json"⟩).body
      = Body.err "invalid offset" ∧
    (("Content-Type", "application/json")
        ∈ (Routing.ServeHTTP routingEmpty
            ⟨"GET", [("offset", "x")], "application/json"⟩).headers
      → False) := by
  decide

/-- C7: whenever the handler produces textual output, an absent nopretty
parameter yields the pretty-printed form (Pretty true, two-space
indentation), and any first value of nopretty other than the strings 0 and
false (the truthy values) disables indentation (Pretty false). -/
theorem serveHTTP_nopretty (r : Routing) (req : Request)
    (pp : PrettyPrintInfo) (rs : GoSlice EskipRoute)
    (hbody : (Routing.ServeHTTP r req).body = Body.eskipText pp rs) :
    (formValues req "nopretty" = [] → pp = ⟨true, "  "⟩) ∧
    (∀ v vs, formValues req "nopretty" = v :: vs →
      v ≠ "0" → v ≠ "false" → pp = ⟨false, ""⟩) := by
  have hpp := serveHTTP_body_eskipText r req pp rs hbody
  subst hpp
  constructor
  · intro hv
    simp [extractPretty, hv]
  · intro v vs hv hv0 hvf
    simp [extractPretty, hv, hv0, hvf]

/-- C7 witness: nopretty=1 disables the indentation of the textual page. -/
theorem serveHTTP_nopretty_witness :
    extractPretty (⟨"GET", [("nopretty", "1")], ""⟩ : Request)
      = ⟨false, ""⟩ :=
  (serveHTTP_nopretty routingTen ⟨"GET", [("nopretty", "1")], ""⟩
      (extractPretty ⟨"GET", [("nopretty", "1")], ""⟩)
      (sliceRoutes (routesN 10) 0 1024) (by decide)).2
    "1" [] (by decide) (by decide) (by decide)
